import Mathlib

/-!
# cf create-buildpack

A shallow embedding of `cf/commands/buildpack/create_buildpack.go` and the
properties of its `Requirements`, `Execute` and `createBuildpack` methods.

Everything the command does to the outside world (messages sent to the
terminal UI, calls to the two repositories) is recorded, in program order, in
a list of `Event`s.  Names declared in other packages of the repository
(`T`, `terminal.EntityNameColor`, `terminal.CommandColor`, `cf.Name`,
`commandregistry.Commands.CommandUsage`, `errors.BuildpackNameTaken`) are
fields of `Externals`, so a theorem stated for an arbitrary `x : Externals`
holds whatever they are.  The two functions of Go's standard library the
command calls, `strconv.Atoi` and `fmt.Errorf`, are modelled on lists of
characters.  Statements about the text of a message are made on
`plainExternals`, where `T` is the English catalogue.
-/

namespace CfCli

/-! ## Data model -/

/-- The part of a `cf/errors.HTTPError` the command can observe. -/
structure HTTPInfo where
  StatusCode : Int
  ErrorCode : String
deriving DecidableEq, Repr

/-- A non-nil Go `error` value: its `Error()` text and, when its dynamic type
implements `errors.HTTPError`, what `StatusCode()` and `ErrorCode()` return.
A nil `error` is `none : Option Error`. -/
structure Error where
  message : String
  http : Option HTTPInfo
deriving DecidableEq, Repr

/-- The value `models.Buildpack`; pointer fields are options. -/
structure Buildpack where
  GUID : String
  Name : String
  Position : Option Int
  Enabled : Option Bool
  Locked : Option Bool
  Key : String
  Filename : String
deriving DecidableEq, Repr

/-- The zero value of `models.Buildpack`, which a named result holds until it
is assigned. -/
def Buildpack.zero : Buildpack := ⟨"", "", none, none, none, "", ""⟩

/-- The view of `flags.FlagContext` the command uses: `Args()` and `Bool(name)`. -/
structure FlagContext where
  Args : List String
  Bool : String → Bool

/-- The requirements `requirements.Factory` can hand out to this command. -/
inductive Requirement where
  | LoginRequirement
deriving DecidableEq, Repr

/-- One observable action of the command, in program order: a method of
`terminal.UI`, `BuildpackRepository.Create` or
`BuildpackBitsRepository.UploadBuildpack`, with its arguments. A pointer
argument is an option holding the pointed-to value. -/
inductive Event where
  | Say (message : String)
  | Ok
  | Warn (message : String)
  | Failed (message : String)
  | Create (name : String) (position : Option Int) (enabled : Option Bool) (locked : Option Bool)
  | UploadBuildpack (buildpack : Buildpack) (path : String)
deriving DecidableEq, Repr

/-- What a method did: the events it caused and the value it returned;
`value = none` when control never came back to the caller (a run-time panic
on an out-of-range index, or `ui.Failed` halting the command). -/
structure Outcome (α : Type) where
  trace : List Event
  value : Option α

/-- The interface `api.BuildpackRepository`, as far as the command uses it. -/
structure BuildpackRepository where
  Create : String → Option Int → Option Bool → Option Bool → Buildpack × Option Error

/-- The interface `api.BuildpackBitsRepository`. -/
structure BuildpackBitsRepository where
  UploadBuildpack : Buildpack → String → Option Error

/-- The command with its injected repositories; the `ui` field is the event
trace. -/
structure CreateBuildpack where
  buildpackRepo : BuildpackRepository
  buildpackBitsRepo : BuildpackBitsRepository

/-- Names the command imports from packages that are not part of the file:
the translation function `T` (with the template data as an association list),
the two colouring functions of `terminal`, `cf.Name`, the usage text the
command registry prints, and the error code `errors.BuildpackNameTaken`. -/
structure Externals where
  T : String → List (String × String) → String
  EntityNameColor : String → String
  CommandColor : String → String
  Name : String
  CommandUsage : String → String
  BuildpackNameTaken : String

/-! ## `strconv.Atoi` -/

/-- The value of an ASCII decimal digit. -/
def digitVal (c : Char) : Option Nat :=
  if 48 ≤ c.toNat ∧ c.toNat ≤ 57 then some (c.toNat - 48) else none

/-- Reads a run of decimal digits, most significant first. -/
def parseDigits : List Char → Nat → Option Nat
  | [], acc => some acc
  | c :: cs, acc =>
    match digitVal c with
    | none => none
    | some d => parseDigits cs (acc * 10 + d)

/-- Go's `strconv.Atoi` on a 64-bit platform, `none` standing for a non-nil
error: an optional sign, then one or more decimal digits and nothing else, the
value within the range of `int`. -/
def Atoi (s : String) : Option Int :=
  match s.toList with
  | [] => none
  | '-' :: ds =>
    if ds = [] then none
    else match parseDigits ds 0 with
      | none => none
      | some n => if n ≤ 2 ^ 63 then some (-(n : Int)) else none
  | '+' :: ds =>
    if ds = [] then none
    else match parseDigits ds 0 with
      | none => none
      | some n => if n < 2 ^ 63 then some (n : Int) else none
  | ds =>
    match parseDigits ds 0 with
    | none => none
    | some n => if n < 2 ^ 63 then some (n : Int) else none

/-! ## `fmt.Errorf` with a format and no operands -/

/-- The flag characters of a `fmt` verb. -/
def isFlag (c : Char) : Bool :=
  c = '#' || c = '0' || c = '+' || c = '-' || c = ' '

/-- Drops the flags that follow a percent sign. -/
def skipFlags : List Char → List Char
  | [] => []
  | c :: cs => if isFlag c then skipFlags cs else c :: cs

/-- The loop of `fmt.parsenum`: whether a number was read, and what is left of
the format; a number that grows past a million abandons the whole format. -/
def parsenum : Nat → Bool → List Char → Bool × List Char
  | _, isnum, [] => (isnum, [])
  | num, isnum, c :: cs =>
    match digitVal c with
    | none => (isnum, c :: cs)
    | some d => if num > 1000000 then (false, []) else parsenum (num * 10 + d) true cs

/-- Splits at the first closing bracket: the text before it and the text
after it. -/
def splitBracket : List Char → Option (List Char × List Char)
  | [] => none
  | c :: cs =>
    if c = ']' then some ([], cs)
    else match splitBracket cs with
      | none => none
      | some (inner, rest) => some (c :: inner, rest)

/-- The method `argNumber` of `fmt` when there are no operands: reads an
explicit argument index `[n]`. Returns what is left of the format, whether an
index was found, and whether an opening bracket was seen (every index is out
of range, so a bracket always makes the verb a bad index). -/
def argNumber : List Char → List Char × Bool × Bool
  | '[' :: cs =>
    if cs.length < 2 then (cs, false, true)
    else match splitBracket cs with
      | none => (cs, false, true)
      | some (inner, rest) =>
        match parsenum 0 false inner with
        | (true, []) => (rest, true, true)
        | _ => (rest, false, true)
  | cs => (cs, false, false)

/-- One verb of `doPrintf` with no operands, starting after the percent sign:
the text it writes and the rest of the format. -/
def formatVerb (afterPercent : List Char) : List Char × List Char :=
  let s0 := skipFlags afterPercent
  -- explicit argument index
  let (s1, afterIndex1, bad1) := argNumber s0
  -- width
  let (s2, afterIndex2, bad2, out2) :=
    match s1 with
    | '*' :: r => (r, false, bad1, "%!(BADWIDTH)".toList)
    | _ =>
      let (isnum, r) := parsenum 0 false s1
      (r, afterIndex1, bad1 || (afterIndex1 && isnum), [])
  -- precision
  let (s3, afterIndex3, bad3, out3) :=
    match s2 with
    | '.' :: c :: r =>
      let (r1, found, bad) := argNumber (c :: r)
      match r1 with
      | '*' :: r2 => (r2, false, bad2 || afterIndex2 || bad, out2 ++ "%!(BADPREC)".toList)
      | _ => ((parsenum 0 false r1).2, found, bad2 || afterIndex2 || bad, out2)
    | _ => (s2, afterIndex2, bad2, out2)
  -- argument index before the verb
  let (s4, bad4) :=
    if afterIndex3 then (s3, bad3)
    else
      let (r, _, bad) := argNumber s3
      (r, bad3 || bad)
  match s4 with
  | [] => (out3 ++ "%!(NOVERB)".toList, [])
  | verb :: r =>
    if verb = '%' then (out3 ++ ['%'], r)
    else if bad4 then (out3 ++ "%!".toList ++ [verb] ++ "(BADINDEX)".toList, r)
    else (out3 ++ "%!".toList ++ [verb] ++ "(MISSING)".toList, r)

/-- The loop of `doPrintf` with no operands; `fuel` bounds the number of
characters still to be read. -/
def doPrintf : Nat → List Char → List Char
  | 0, _ => []
  | _, [] => []
  | fuel + 1, c :: cs =>
    if c = '%' then
      let (out, rest) := formatVerb cs
      out ++ doPrintf fuel rest
    else c :: doPrintf fuel cs

/-- Go's `fmt.Sprintf(format)` with no operands. -/
def Sprintf (format : String) : String :=
  String.mk (doPrintf format.length format.toList)

/-- Go's `fmt.Errorf(format)` with no operands: an error that is not an
`HTTPError` and whose text is the formatted string. -/
def Errorf (format : String) : Error := ⟨Sprintf format, none⟩

/-- The function `errors.New`: an error, not an `HTTPError`, with the given
text. -/
def errorsNew (message : String) : Error := ⟨message, none⟩

/-! ## The translation function on the built-in English catalogue -/

/-- The value bound to a template variable; `text/template` prints a missing
map key as `<no value>`. -/
def lookupVar (data : List (String × String)) (key : List Char) : List Char :=
  match data.lookup (String.mk key) with
  | some v => v.toList
  | none => "<no value>".toList

/-- Executes a template: copies the text and replaces each action
`{{.Key}}` by the value bound to `Key`. The first argument is `none` while
reading text and holds the characters of the key read so far (last first)
inside an action. -/
def execTemplate (data : List (String × String)) : Option (List Char) → List Char → List Char
  | none, '{' :: '{' :: '.' :: cs => execTemplate data (some []) cs
  | none, c :: cs => c :: execTemplate data none cs
  | none, [] => []
  | some key, '}' :: '}' :: cs => lookupVar data key.reverse ++ execTemplate data none cs
  | some key, c :: cs => execTemplate data (some (c :: key)) cs
  | some _, [] => []

/-- Modelled from the spec: the translation function `T` of `cf/i18n` is not
under src/ (the spec leaves localization to a collaborator and only asks that
messages name the values given). This is `T` on the English catalogue, whose
translation of a message is the message itself: the template is executed
with the data supplied. -/
def translate (translationID : String) (data : List (String × String)) : String :=
  String.mk (execTemplate data none translationID.toList)

/-! ## The command -/

/-- Modelled from the spec: the method `Failed` of `terminal.UI` is not under
src/. By sections 4.2 and 7 of the spec it reports the message and halts the
whole process, so control never returns to the caller. -/
def Failed {α : Type} (message : String) : Outcome α :=
  ⟨[Event.Failed message], none⟩

/-- The method `Requirements`. -/
def Requirements (x : Externals) (fc : FlagContext) : Outcome (List Requirement) :=
  if fc.Args.length ≠ 3 then
    Failed (x.T "Incorrect Usage. Requires buildpack_name, path and position as arguments\n\n" []
      ++ x.CommandUsage "create-buildpack")
  else
    ⟨[], some [Requirement.LoginRequirement]⟩

/-- The pointer `enableOption` that `createBuildpack` builds from the two
flag values once it knows they are not both set (the statements from
`var enableOption *bool` up to the call of `Create`): nil unless a flag is
set, the address of `enabled` when that flag is set, the address of
`disabled`, after it has been reassigned to false, when that flag is set. -/
def enableOption (enabled disabled : Bool) : Option Bool :=
  let enableOption : Option Bool := none
  let enableOption := if enabled then some enabled else enableOption
  let enableOption :=
    if disabled then
      let disabled := false
      some disabled
    else enableOption
  enableOption

/-- The method `createBuildpack`: the events it causes and the pair
`(buildpack, apiErr)` it returns. -/
def createBuildpack (x : Externals) (cmd : CreateBuildpack) (buildpackName : String)
    (c : FlagContext) : Outcome (Buildpack × Option Error) :=
  match c.Args[2]? with
  | none => ⟨[], none⟩
  | some arg2 =>
    match Atoi arg2 with
    | none =>
      ⟨[], some (Buildpack.zero, some (Errorf (x.T
        "Error {{.ErrorDescription}} is being passed in as the argument for 'Position' but 'Position' requires an integer.  For more syntax help, see `cf create-buildpack -h`."
        [("ErrorDescription", arg2)])))⟩
    | some position =>
      let enabled := c.Bool "enable"
      let disabled := c.Bool "disable"
      if enabled && disabled then
        ⟨[], some (Buildpack.zero, some (errorsNew (x.T
          "Cannot specify both {{.Enabled}} and {{.Disabled}}."
          [("Enabled", "enabled"), ("Disabled", "disabled")])))⟩
      else
        let enableOption := enableOption enabled disabled
        ⟨[Event.Create buildpackName (some position) enableOption none],
          some (cmd.buildpackRepo.Create buildpackName (some position) enableOption none)⟩

/-- The method `Execute`: the events it causes and the error it returns
(`some none` is a nil error). -/
def Execute (x : Externals) (cmd : CreateBuildpack) (c : FlagContext) : Outcome (Option Error) :=
  match c.Args[0]? with
  | none => ⟨[], none⟩
  | some buildpackName =>
    let say1 := Event.Say (x.T "Creating buildpack {{.BuildpackName}}..."
      [("BuildpackName", x.EntityNameColor buildpackName)])
    match createBuildpack x cmd buildpackName c with
    | ⟨t, none⟩ => ⟨say1 :: t, none⟩
    | ⟨t, some (_, some err)⟩ =>
      let nameTaken :=
        match err.http with
        | some httpErr => httpErr.ErrorCode == x.BuildpackNameTaken
        | none => false
      if nameTaken then
        ⟨say1 :: t ++
          [Event.Ok,
           Event.Warn (x.T "Buildpack {{.BuildpackName}} already exists"
             [("BuildpackName", buildpackName)]),
           Event.Say (x.T "TIP: use '{{.CfUpdateBuildpackCommand}}' to update this buildpack"
             [("CfUpdateBuildpackCommand", x.CommandColor (x.Name ++ " " ++ "update-buildpack"))])],
          some none⟩
      else
        ⟨say1 :: t, some (some err)⟩
    | ⟨t, some (buildpack, none)⟩ =>
      let t := say1 :: t ++
        [Event.Ok,
         Event.Say "",
         Event.Say (x.T "Uploading buildpack {{.BuildpackName}}..."
           [("BuildpackName", x.EntityNameColor buildpackName)])]
      match c.Args[1]? with
      | none => ⟨t, none⟩
      | some path =>
        let t := t ++ [Event.UploadBuildpack buildpack path]
        match cmd.buildpackBitsRepo.UploadBuildpack buildpack path with
        | some err => ⟨t, some (some err)⟩
        | none => ⟨t ++ [Event.Ok], some none⟩

/-- Modelled from the spec: the command runner is not under src/. By sections
2 and 4.2 of the spec the precondition checker is a gate: `Requirements` runs
first, then each requirement it returned is evaluated (`loggedIn` is the
verdict of the login requirement, which reports its own failure), and only
when all of them pass does `Execute` run. -/
def runCommand (x : Externals) (cmd : CreateBuildpack) (loggedIn : Bool) (c : FlagContext) :
    Outcome (Option Error) :=
  match Requirements x c with
  | ⟨t, none⟩ => ⟨t, none⟩
  | ⟨t, some _⟩ =>
    if loggedIn then
      let r := Execute x cmd c
      ⟨t ++ r.trace, r.value⟩
    else ⟨t, none⟩

/-! ## Reading a trace -/

/-- Whether an event is a call to one of the two repositories. -/
def Event.isRemote : Event → Bool
  | Event.Create _ _ _ _ => true
  | Event.UploadBuildpack _ _ => true
  | _ => false

/-- The remote calls of a trace, in order. -/
def remoteCalls (t : List Event) : List Event := t.filter Event.isRemote

/-- The messages sent to the terminal UI, in order. -/
def uiMessages (t : List Event) : List Event := t.filter (fun e => !e.isRemote)

/-- The arguments of a call to `Create`. -/
def Event.createArgs : Event → Option (String × Option Int × Option Bool × Option Bool)
  | Event.Create name position enabled locked => some (name, position, enabled, locked)
  | _ => none

/-- The arguments of a call to `UploadBuildpack`. -/
def Event.uploadArgs : Event → Option (Buildpack × String)
  | Event.UploadBuildpack buildpack path => some (buildpack, path)
  | _ => none

/-- The argument lists of the calls to `Create` in a trace, in order. -/
def createCalls (t : List Event) : List (String × Option Int × Option Bool × Option Bool) :=
  t.filterMap Event.createArgs

/-- The argument lists of the calls to `UploadBuildpack` in a trace, in order. -/
def uploadCalls (t : List Event) : List (Buildpack × String) :=
  t.filterMap Event.uploadArgs

/-- The text of the first message of `Execute`. -/
def msgCreating (x : Externals) (buildpackName : String) : String :=
  x.T "Creating buildpack {{.BuildpackName}}..."
    [("BuildpackName", x.EntityNameColor buildpackName)]

/-- The text of the message that announces the upload. -/
def msgUploading (x : Externals) (buildpackName : String) : String :=
  x.T "Uploading buildpack {{.BuildpackName}}..."
    [("BuildpackName", x.EntityNameColor buildpackName)]

/-- The text of the warning on a name that is taken. -/
def msgAlreadyExists (x : Externals) (buildpackName : String) : String :=
  x.T "Buildpack {{.BuildpackName}} already exists" [("BuildpackName", buildpackName)]

/-- The text of the tip that follows the warning. -/
def msgTip (x : Externals) : String :=
  x.T "TIP: use '{{.CfUpdateBuildpackCommand}}' to update this buildpack"
    [("CfUpdateBuildpackCommand", x.CommandColor (x.Name ++ " " ++ "update-buildpack"))]

/-- The error `createBuildpack` returns for a position that is not an integer. -/
def errNotInteger (x : Externals) (arg : String) : Error :=
  Errorf (x.T
    "Error {{.ErrorDescription}} is being passed in as the argument for 'Position' but 'Position' requires an integer.  For more syntax help, see `cf create-buildpack -h`."
    [("ErrorDescription", arg)])

/-- The error `createBuildpack` returns when both flags are set. -/
def errBothFlags (x : Externals) : Error :=
  errorsNew (x.T "Cannot specify both {{.Enabled}} and {{.Disabled}}."
    [("Enabled", "enabled"), ("Disabled", "disabled")])

/-- Whether a list of characters occurs in another as a contiguous run. -/
def containsChars (needle : List Char) : List Char → Bool
  | [] => needle.isEmpty
  | c :: cs => needle.isPrefixOf (c :: cs) || containsChars needle cs

/-- Whether `sub` occurs verbatim in `s`. -/
def contains (s sub : String) : Bool := containsChars sub.toList s.toList

/-- A concrete choice of the external names: the English catalogue, a
terminal without colours, the binary called `cf`, and Cloud Foundry's error
code 290001 for a buildpack name that is taken. -/
def plainExternals : Externals where
  T := translate
  EntityNameColor := fun s => s
  CommandColor := fun s => s
  Name := "cf"
  CommandUsage := fun name => "cf " ++ name ++ " BUILDPACK PATH POSITION [--enable|--disable]"
  BuildpackNameTaken := "290001"

/-- A repository whose `Create` echoes its arguments in a new buildpack. -/
def echoRepo : BuildpackRepository where
  Create := fun name position enabled locked =>
    (⟨"guid-1", name, position, enabled, locked, "", ""⟩, none)

/-- A repository whose `Create` fails with the given error. -/
def failingRepo (err : Error) : BuildpackRepository where
  Create := fun _ _ _ _ => (Buildpack.zero, some err)

/-- A bits repository whose upload returns the given result. -/
def bitsRepo (result : Option Error) : BuildpackBitsRepository where
  UploadBuildpack := fun _ _ => result

/-- An invocation with the given arguments and flag values. -/
def invocation (args : List String) (enable disable : Bool) : FlagContext where
  Args := args
  Bool := fun name => if name = "enable" then enable else if name = "disable" then disable else false

set_option maxRecDepth 100000

/-! ## The paths through `createBuildpack` and `Execute` -/

/-- The option in closed form. -/
theorem enableOption_eq (enabled disabled : Bool) :
    enableOption enabled disabled
      = if disabled then some false else if enabled then some true else none := by
  cases enabled <;> cases disabled <;> rfl

/-- A position that is not an integer: `createBuildpack` returns the error and calls nothing. -/
theorem createBuildpack_not_integer (x : Externals) (cmd : CreateBuildpack) (c : FlagContext)
    (bn name path pos : String) (hargs : c.Args = [name, path, pos]) (hpos : Atoi pos = none) :
    createBuildpack x cmd bn c = ⟨[], some (Buildpack.zero, some (errNotInteger x pos))⟩ := by
  unfold createBuildpack errNotInteger
  simp only [hargs, List.getElem?_cons_succ, List.getElem?_cons_zero, hpos]

/-- Both flags set on an integer position: `createBuildpack` returns the error and calls nothing. -/
theorem createBuildpack_both_flags (x : Externals) (cmd : CreateBuildpack) (c : FlagContext)
    (bn name path pos : String) (p : Int) (hargs : c.Args = [name, path, pos])
    (hpos : Atoi pos = some p) (he : c.Bool "enable" = true) (hd : c.Bool "disable" = true) :
    createBuildpack x cmd bn c = ⟨[], some (Buildpack.zero, some (errBothFlags x))⟩ := by
  unfold createBuildpack errBothFlags
  simp [hargs, hpos, he, hd]

/-- An integer position and not both flags: `createBuildpack` calls `Create` once and returns its result. -/
theorem createBuildpack_calls_create (x : Externals) (cmd : CreateBuildpack) (c : FlagContext)
    (bn name path pos : String) (p : Int) (hargs : c.Args = [name, path, pos])
    (hpos : Atoi pos = some p)
    (hnot : ¬ (c.Bool "enable" = true ∧ c.Bool "disable" = true)) :
    createBuildpack x cmd bn c =
      ⟨[Event.Create bn (some p) (enableOption (c.Bool "enable") (c.Bool "disable")) none],
        some (cmd.buildpackRepo.Create bn (some p)
          (enableOption (c.Bool "enable") (c.Bool "disable")) none)⟩ := by
  unfold createBuildpack
  simp only [hargs, List.getElem?_cons_succ, List.getElem?_cons_zero, hpos]
  cases he : c.Bool "enable" <;> cases hd : c.Bool "disable" <;> simp_all

/-- The run of `Execute` on a position that is not an integer. -/
theorem run_not_integer (x : Externals) (cmd : CreateBuildpack) (c : FlagContext)
    (name path pos : String) (hargs : c.Args = [name, path, pos]) (hpos : Atoi pos = none) :
    Execute x cmd c = ⟨[Event.Say (msgCreating x name)], some (some (errNotInteger x pos))⟩ := by
  unfold Execute
  simp only [hargs, List.getElem?_cons_zero]
  rw [createBuildpack_not_integer x cmd c name name path pos hargs hpos]
  simp [errNotInteger, Errorf, msgCreating]

/-- The run of `Execute` with both flags set on an integer position. -/
theorem run_both_flags (x : Externals) (cmd : CreateBuildpack) (c : FlagContext)
    (name path pos : String) (p : Int) (hargs : c.Args = [name, path, pos])
    (hpos : Atoi pos = some p) (he : c.Bool "enable" = true) (hd : c.Bool "disable" = true) :
    Execute x cmd c = ⟨[Event.Say (msgCreating x name)], some (some (errBothFlags x))⟩ := by
  unfold Execute
  simp only [hargs, List.getElem?_cons_zero]
  rw [createBuildpack_both_flags x cmd c name name path pos p hargs hpos he hd]
  simp [errBothFlags, errorsNew, msgCreating]

/-- The run of `Execute` when `Create` fails with the name-taken HTTP error. -/
theorem run_name_taken (x : Externals) (cmd : CreateBuildpack) (c : FlagContext)
    (name path pos : String) (p : Int) (bp : Buildpack) (err : Error) (h : HTTPInfo)
    (hargs : c.Args = [name, path, pos]) (hpos : Atoi pos = some p)
    (hnot : ¬ (c.Bool "enable" = true ∧ c.Bool "disable" = true))
    (hcreate : cmd.buildpackRepo.Create name (some p)
      (enableOption (c.Bool "enable") (c.Bool "disable")) none = (bp, some err))
    (hhttp : err.http = some h) (hcode : h.ErrorCode = x.BuildpackNameTaken) :
    Execute x cmd c =
      ⟨[Event.Say (msgCreating x name),
        Event.Create name (some p) (enableOption (c.Bool "enable") (c.Bool "disable")) none,
        Event.Ok,
        Event.Warn (msgAlreadyExists x name),
        Event.Say (msgTip x)], some none⟩ := by
  unfold Execute
  simp only [hargs, List.getElem?_cons_zero]
  rw [createBuildpack_calls_create x cmd c name name path pos p hargs hpos hnot, hcreate]
  simp [hhttp, hcode, msgCreating, msgAlreadyExists, msgTip]

/-- The run of `Execute` when `Create` fails with any other error. -/
theorem run_create_error (x : Externals) (cmd : CreateBuildpack) (c : FlagContext)
    (name path pos : String) (p : Int) (bp : Buildpack) (err : Error)
    (hargs : c.Args = [name, path, pos]) (hpos : Atoi pos = some p)
    (hnot : ¬ (c.Bool "enable" = true ∧ c.Bool "disable" = true))
    (hcreate : cmd.buildpackRepo.Create name (some p)
      (enableOption (c.Bool "enable") (c.Bool "disable")) none = (bp, some err))
    (hother : ¬ ∃ h, err.http = some h ∧ h.ErrorCode = x.BuildpackNameTaken) :
    Execute x cmd c =
      ⟨[Event.Say (msgCreating x name),
        Event.Create name (some p) (enableOption (c.Bool "enable") (c.Bool "disable")) none],
        some (some err)⟩ := by
  unfold Execute
  simp only [hargs, List.getElem?_cons_zero]
  rw [createBuildpack_calls_create x cmd c name name path pos p hargs hpos hnot, hcreate]
  cases hh : err.http with
  | none => simp [hh, msgCreating]
  | some h =>
    have hne : ¬ h.ErrorCode = x.BuildpackNameTaken := fun hc => hother ⟨h, hh, hc⟩
    simp [hh, hne, msgCreating]

/-- The run of `Execute` when `Create` succeeds and the upload fails. -/
theorem run_upload_error (x : Externals) (cmd : CreateBuildpack) (c : FlagContext)
    (name path pos : String) (p : Int) (bp : Buildpack) (err : Error)
    (hargs : c.Args = [name, path, pos]) (hpos : Atoi pos = some p)
    (hnot : ¬ (c.Bool "enable" = true ∧ c.Bool "disable" = true))
    (hcreate : cmd.buildpackRepo.Create name (some p)
      (enableOption (c.Bool "enable") (c.Bool "disable")) none = (bp, none))
    (hupload : cmd.buildpackBitsRepo.UploadBuildpack bp path = some err) :
    Execute x cmd c =
      ⟨[Event.Say (msgCreating x name),
        Event.Create name (some p) (enableOption (c.Bool "enable") (c.Bool "disable")) none,
        Event.Ok,
        Event.Say "",
        Event.Say (msgUploading x name),
        Event.UploadBuildpack bp path], some (some err)⟩ := by
  unfold Execute
  simp only [hargs, List.getElem?_cons_zero]
  rw [createBuildpack_calls_create x cmd c name name path pos p hargs hpos hnot, hcreate]
  simp [hupload, msgCreating, msgUploading]

/-- The run of `Execute` when both repositories succeed. -/
theorem run_success (x : Externals) (cmd : CreateBuildpack) (c : FlagContext)
    (name path pos : String) (p : Int) (bp : Buildpack)
    (hargs : c.Args = [name, path, pos]) (hpos : Atoi pos = some p)
    (hnot : ¬ (c.Bool "enable" = true ∧ c.Bool "disable" = true))
    (hcreate : cmd.buildpackRepo.Create name (some p)
      (enableOption (c.Bool "enable") (c.Bool "disable")) none = (bp, none))
    (hupload : cmd.buildpackBitsRepo.UploadBuildpack bp path = none) :
    Execute x cmd c =
      ⟨[Event.Say (msgCreating x name),
        Event.Create name (some p) (enableOption (c.Bool "enable") (c.Bool "disable")) none,
        Event.Ok,
        Event.Say "",
        Event.Say (msgUploading x name),
        Event.UploadBuildpack bp path,
        Event.Ok], some none⟩ := by
  unfold Execute
  simp only [hargs, List.getElem?_cons_zero]
  rw [createBuildpack_calls_create x cmd c name name path pos p hargs hpos hnot, hcreate]
  simp [hupload, msgCreating, msgUploading]


/-! ## The option passed to `Create` -/

/-- C1: when `Execute` runs with three arguments, the third an integer, and
the flags are not both set, `Create` is called once and its enable option is
nil when neither flag is set, a pointer to true when only `enable` is set and
a pointer to false when only `disable` is set. -/
theorem Execute_enable_option (x : Externals) (cmd : CreateBuildpack) (c : FlagContext)
    (name path pos : String) (p : Int)
    (hargs : c.Args = [name, path, pos]) (hpos : Atoi pos = some p)
    (hnot : ¬ (c.Bool "enable" = true ∧ c.Bool "disable" = true)) :
    ∃ option : Option Bool,
      createCalls (Execute x cmd c).trace = [(name, some p, option, none)]
      ∧ (c.Bool "enable" = false → c.Bool "disable" = false → option = none)
      ∧ (c.Bool "enable" = true → c.Bool "disable" = false → option = some true)
      ∧ (c.Bool "enable" = false → c.Bool "disable" = true → option = some false) := by
  refine ⟨enableOption (c.Bool "enable") (c.Bool "disable"), ?_, ?_, ?_, ?_⟩
  · have hcb := createBuildpack_calls_create x cmd c name name path pos p hargs hpos hnot
    unfold Execute
    simp only [hargs, List.getElem?_cons_zero, List.getElem?_cons_succ, hcb]
    rcases hres : cmd.buildpackRepo.Create name (some p)
      (enableOption (c.Bool "enable") (c.Bool "disable")) none with ⟨bp, _ | err⟩
    · cases hup : cmd.buildpackBitsRepo.UploadBuildpack bp path <;>
        simp [hup, createCalls, Event.createArgs]
    · simp only []
      split <;> simp [createCalls, Event.createArgs]
  · intro he hd
    simp [he, hd, enableOption]
  · intro he hd
    simp [he, hd, enableOption]
  · intro he hd
    simp [he, hd, enableOption]

/-- A run of C1 with only the `disable` flag set: the option is a pointer to
false. -/
theorem Execute_enable_option_witness :
    (invocation ["ruby_bp", "./bp.zip", "3"] false true).Args = ["ruby_bp", "./bp.zip", "3"]
    ∧ Atoi "3" = some 3
    ∧ ∃ option : Option Bool,
      createCalls (Execute plainExternals ⟨echoRepo, bitsRepo none⟩
        (invocation ["ruby_bp", "./bp.zip", "3"] false true)).trace
          = [("ruby_bp", some 3, option, none)]
      ∧ option = some false :=
  ⟨rfl, by decide,
    (Execute_enable_option plainExternals ⟨echoRepo, bitsRepo none⟩
      (invocation ["ruby_bp", "./bp.zip", "3"] false true) "ruby_bp" "./bp.zip" "3" 3
      rfl (by decide) (by decide)).imp
      (fun _ h => ⟨h.1, h.2.2.2 (by decide) (by decide)⟩)⟩

/-! ## Validation errors -/

/-- C2: when `Execute` runs with three arguments and both flags set, whatever
the arguments are, it returns a non-nil error and calls neither `Create` nor
`UploadBuildpack`; when the position is an integer the error is the one that
says both flags cannot be specified. -/
theorem Execute_both_flags_error (x : Externals) (cmd : CreateBuildpack) (c : FlagContext)
    (name path pos : String)
    (hargs : c.Args = [name, path, pos])
    (he : c.Bool "enable" = true) (hd : c.Bool "disable" = true) :
    (∃ err : Error, (Execute x cmd c).value = some (some err))
    ∧ remoteCalls (Execute x cmd c).trace = []
    ∧ createCalls (Execute x cmd c).trace = []
    ∧ uploadCalls (Execute x cmd c).trace = []
    ∧ (∀ p : Int, Atoi pos = some p → (Execute x cmd c).value = some (some (errBothFlags x))) := by
  cases hpos : Atoi pos with
  | none =>
    rw [run_not_integer x cmd c name path pos hargs hpos]
    exact ⟨⟨_, rfl⟩, rfl, rfl, rfl, fun p hp => by cases hp⟩
  | some p =>
    rw [run_both_flags x cmd c name path pos p hargs hpos he hd]
    exact ⟨⟨_, rfl⟩, rfl, rfl, rfl, fun _ _ => rfl⟩

/-- A run of C2: scenario 6 of the spec. -/
theorem Execute_both_flags_error_witness :
    (invocation ["bp", "./x", "3"] true true).Bool "enable" = true
    ∧ (invocation ["bp", "./x", "3"] true true).Bool "disable" = true
    ∧ (∃ err : Error, (Execute plainExternals ⟨echoRepo, bitsRepo none⟩
        (invocation ["bp", "./x", "3"] true true)).value = some (some err))
    ∧ remoteCalls (Execute plainExternals ⟨echoRepo, bitsRepo none⟩
        (invocation ["bp", "./x", "3"] true true)).trace = [] :=
  ⟨by decide, by decide,
    (Execute_both_flags_error plainExternals ⟨echoRepo, bitsRepo none⟩
      (invocation ["bp", "./x", "3"] true true) "bp" "./x" "3" rfl (by decide) (by decide)).1,
    (Execute_both_flags_error plainExternals ⟨echoRepo, bitsRepo none⟩
      (invocation ["bp", "./x", "3"] true true) "bp" "./x" "3" rfl (by decide) (by decide)).2.1⟩

/-- For a position that `strconv.Atoi` rejects, `Execute` returns the error
built with `fmt.Errorf` and calls neither repository. -/
theorem not_integer_no_calls (x : Externals) (cmd : CreateBuildpack) (c : FlagContext)
    (name path pos : String)
    (hargs : c.Args = [name, path, pos]) (hpos : Atoi pos = none) :
    (Execute x cmd c).value = some (some (errNotInteger x pos))
    ∧ remoteCalls (Execute x cmd c).trace = [] := by
  rw [run_not_integer x cmd c name path pos hargs hpos]
  exact ⟨rfl, rfl⟩

/-- C3 at the position `%d`: `strconv.Atoi` rejects it, no repository is
called, and the text of the error `Execute` returns, on the English
catalogue, is the one below, which does not contain `%d`: `fmt.Errorf` read
the argument as a verb with a missing operand. -/
theorem Execute_not_integer_percent (cmd : CreateBuildpack) :
    Atoi "%d" = none
    ∧ (Execute plainExternals cmd (invocation ["bp", "./x", "%d"] false false)).value
        = some (some ⟨"Error %!d(MISSING) is being passed in as the argument for 'Position' but 'Position' requires an integer.  For more syntax help, see `cf create-buildpack -h`.", none⟩)
    ∧ contains "Error %!d(MISSING) is being passed in as the argument for 'Position' but 'Position' requires an integer.  For more syntax help, see `cf create-buildpack -h`." "%d" = false
    ∧ remoteCalls (Execute plainExternals cmd (invocation ["bp", "./x", "%d"] false false)).trace = [] := by
  have h := not_integer_no_calls plainExternals cmd
    (invocation ["bp", "./x", "%d"] false false) "bp" "./x" "%d" rfl (by decide)
  refine ⟨by decide, ?_, by decide, h.2⟩
  rw [h.1]
  decide

/-- Scenario 5 of the spec: for the position `abc` the text of the error
contains `abc`. -/
theorem scenario5_names_abc (cmd : CreateBuildpack) :
    ∃ err : Error,
      (Execute plainExternals cmd (invocation ["bp", "./x", "abc"] false false)).value
        = some (some err)
      ∧ contains err.message "abc" = true := by
  have h := not_integer_no_calls plainExternals cmd
    (invocation ["bp", "./x", "abc"] false false) "bp" "./x" "abc" rfl (by decide)
  exact ⟨_, h.1, by decide⟩

/-! ## The text of the not-an-integer error -/

/-- A format without a percent sign is printed as it is. -/
theorem doPrintf_no_percent (l : List Char) (hl : '%' ∉ l) (fuel : Nat) (hf : l.length ≤ fuel) :
    doPrintf fuel l = l := by
  induction l generalizing fuel with
  | nil => cases fuel <;> rfl
  | cons c cs ih =>
    cases fuel with
    | zero => simp at hf
    | succ fuel =>
      have hc : c ≠ '%' := fun h => hl (by simp [h])
      have hcs : '%' ∉ cs := fun h => hl (List.mem_cons_of_mem _ h)
      simp only [doPrintf, hc, if_false]
      rw [ih hcs fuel (by simpa using hf)]

/-- A list occurs in whatever is put around it. -/
theorem containsChars_append (needle before after : List Char) :
    containsChars needle (before ++ needle ++ after) = true := by
  have hpre : needle.isPrefixOf (needle ++ after) = true := by
    rw [List.isPrefixOf_iff_prefix]
    exact List.prefix_append _ _
  induction before with
  | nil =>
    cases hn : needle with
    | nil => cases after <;> simp [containsChars]
    | cons c cs =>
      rw [hn] at hpre
      simp only [List.nil_append, List.cons_append, containsChars, Bool.or_eq_true]
      exact Or.inl hpre
  | cons b bs ih =>
    simp only [List.cons_append, containsChars, Bool.or_eq_true]
    exact Or.inr (by simpa using ih)

/-- On the English catalogue the template of the not-an-integer message is
filled with the argument as it is. -/
theorem translate_not_integer (v : List Char) :
    translate
      "Error {{.ErrorDescription}} is being passed in as the argument for 'Position' but 'Position' requires an integer.  For more syntax help, see `cf create-buildpack -h`."
      [("ErrorDescription", String.mk v)]
    = String.mk ("Error ".toList ++ v ++
        " is being passed in as the argument for 'Position' but 'Position' requires an integer.  For more syntax help, see `cf create-buildpack -h`.".toList) := by
  rfl

/-- For a position that `strconv.Atoi` rejects and that holds no percent
sign, the text of the error `Execute` returns, on the English catalogue,
contains the position as it was typed. -/
theorem not_integer_names_argument (cmd : CreateBuildpack) (c : FlagContext)
    (name path pos : String)
    (hargs : c.Args = [name, path, pos]) (hpos : Atoi pos = none)
    (hpercent : '%' ∉ pos.toList) :
    ∃ err : Error, (Execute plainExternals cmd c).value = some (some err)
      ∧ contains err.message pos = true := by
  refine ⟨_, (not_integer_no_calls plainExternals cmd c name path pos hargs hpos).1, ?_⟩
  have ht := translate_not_integer pos.toList
  simp only [errNotInteger, Errorf, plainExternals, Sprintf, contains]
  have hpos' : (String.mk pos.toList) = pos := rfl
  rw [hpos'] at ht
  rw [ht]
  simp only [String.length, String.toList]
  rw [doPrintf_no_percent _ _ _ (le_refl _)]
  · exact containsChars_append _ _ _
  · intro h
    rcases List.mem_append.1 h with h | h
    · rcases List.mem_append.1 h with h | h
      · revert h; decide
      · exact hpercent h
    · revert h; decide

/-! ## Failures of the remote calls -/

/-- C4: on a valid invocation where `Create` returns an HTTP error whose code
is `BuildpackNameTaken`, `Execute` returns nil, never calls
`UploadBuildpack`, and the last two messages sent to the UI are the warning
that the buildpack already exists and then the tip. -/
theorem Execute_name_taken_soft (x : Externals) (cmd : CreateBuildpack) (c : FlagContext)
    (name path pos : String) (p : Int) (bp : Buildpack) (err : Error) (h : HTTPInfo)
    (hargs : c.Args = [name, path, pos]) (hpos : Atoi pos = some p)
    (hnot : ¬ (c.Bool "enable" = true ∧ c.Bool "disable" = true))
    (hcreate : cmd.buildpackRepo.Create name (some p)
      (enableOption (c.Bool "enable") (c.Bool "disable")) none = (bp, some err))
    (hhttp : err.http = some h) (hcode : h.ErrorCode = x.BuildpackNameTaken) :
    (Execute x cmd c).value = some none
    ∧ uploadCalls (Execute x cmd c).trace = []
    ∧ ∃ earlier : List Event,
        uiMessages (Execute x cmd c).trace
          = earlier ++ [Event.Warn (msgAlreadyExists x name), Event.Say (msgTip x)] := by
  rw [run_name_taken x cmd c name path pos p bp err h hargs hpos hnot hcreate hhttp hcode]
  exact ⟨rfl, rfl, [Event.Say (msgCreating x name), Event.Ok], rfl⟩

/-- A run of C4: scenario 3 of the spec. -/
theorem Execute_name_taken_soft_witness :
    (failingRepo ⟨"taken", some ⟨400, "290001"⟩⟩).Create "ruby_bp" (some 3)
        (enableOption false false) none
      = (Buildpack.zero, some ⟨"taken", some ⟨400, "290001"⟩⟩)
    ∧ (Execute plainExternals ⟨failingRepo ⟨"taken", some ⟨400, "290001"⟩⟩, bitsRepo none⟩
        (invocation ["ruby_bp", "./bp.zip", "3"] false false)).value = some none
    ∧ uploadCalls (Execute plainExternals
        ⟨failingRepo ⟨"taken", some ⟨400, "290001"⟩⟩, bitsRepo none⟩
        (invocation ["ruby_bp", "./bp.zip", "3"] false false)).trace = [] :=
  ⟨rfl,
    (Execute_name_taken_soft plainExternals
      ⟨failingRepo ⟨"taken", some ⟨400, "290001"⟩⟩, bitsRepo none⟩
      (invocation ["ruby_bp", "./bp.zip", "3"] false false) "ruby_bp" "./bp.zip" "3" 3
      Buildpack.zero ⟨"taken", some ⟨400, "290001"⟩⟩ ⟨400, "290001"⟩
      rfl (by decide) (by decide) rfl rfl rfl).1,
    (Execute_name_taken_soft plainExternals
      ⟨failingRepo ⟨"taken", some ⟨400, "290001"⟩⟩, bitsRepo none⟩
      (invocation ["ruby_bp", "./bp.zip", "3"] false false) "ruby_bp" "./bp.zip" "3" 3
      Buildpack.zero ⟨"taken", some ⟨400, "290001"⟩⟩ ⟨400, "290001"⟩
      rfl (by decide) (by decide) rfl rfl rfl).2.1⟩

/-- C5: on a valid invocation, a failure of `Create` that is not the
name-taken HTTP error is returned by `Execute` as the very error value
`Create` returned, and `UploadBuildpack` is not called; when `Create`
succeeds, any error of `UploadBuildpack` is returned as the very value it
returned. -/
theorem Execute_remote_error_verbatim (x : Externals) (cmd : CreateBuildpack) (c : FlagContext)
    (name path pos : String) (p : Int)
    (hargs : c.Args = [name, path, pos]) (hpos : Atoi pos = some p)
    (hnot : ¬ (c.Bool "enable" = true ∧ c.Bool "disable" = true)) :
    (∀ (bp : Buildpack) (err : Error),
        cmd.buildpackRepo.Create name (some p)
          (enableOption (c.Bool "enable") (c.Bool "disable")) none = (bp, some err) →
        (¬ ∃ h : HTTPInfo, err.http = some h ∧ h.ErrorCode = x.BuildpackNameTaken) →
        (Execute x cmd c).value = some (some err)
        ∧ uploadCalls (Execute x cmd c).trace = [])
    ∧ (∀ (bp : Buildpack) (err : Error),
        cmd.buildpackRepo.Create name (some p)
          (enableOption (c.Bool "enable") (c.Bool "disable")) none = (bp, none) →
        cmd.buildpackBitsRepo.UploadBuildpack bp path = some err →
        (Execute x cmd c).value = some (some err)) := by
  constructor
  · intro bp err hcreate hother
    rw [run_create_error x cmd c name path pos p bp err hargs hpos hnot hcreate hother]
    exact ⟨rfl, rfl⟩
  · intro bp err hcreate hupload
    rw [run_upload_error x cmd c name path pos p bp err hargs hpos hnot hcreate hupload]

/-- Two runs of C5: `Create` fails with an HTTP error of another code, and
`Create` succeeds but the upload fails with an HTTP error that carries the
name-taken code (scenario 4 of the spec). -/
theorem Execute_remote_error_verbatim_witness :
    ((Execute plainExternals ⟨failingRepo ⟨"boom", some ⟨500, "10001"⟩⟩, bitsRepo none⟩
        (invocation ["ruby_bp", "./bp.zip", "3"] true false)).value
        = some (some ⟨"boom", some ⟨500, "10001"⟩⟩)
      ∧ uploadCalls (Execute plainExternals
          ⟨failingRepo ⟨"boom", some ⟨500, "10001"⟩⟩, bitsRepo none⟩
          (invocation ["ruby_bp", "./bp.zip", "3"] true false)).trace = [])
    ∧ (Execute plainExternals ⟨echoRepo, bitsRepo (some ⟨"no bits", some ⟨400, "290001"⟩⟩)⟩
        (invocation ["ruby_bp", "./bp.zip", "3"] true false)).value
        = some (some ⟨"no bits", some ⟨400, "290001"⟩⟩) :=
  ⟨(Execute_remote_error_verbatim plainExternals
      ⟨failingRepo ⟨"boom", some ⟨500, "10001"⟩⟩, bitsRepo none⟩
      (invocation ["ruby_bp", "./bp.zip", "3"] true false) "ruby_bp" "./bp.zip" "3" 3
      rfl (by decide) (by decide)).1 Buildpack.zero ⟨"boom", some ⟨500, "10001"⟩⟩ rfl
      (by decide),
    (Execute_remote_error_verbatim plainExternals
      ⟨echoRepo, bitsRepo (some ⟨"no bits", some ⟨400, "290001"⟩⟩)⟩
      (invocation ["ruby_bp", "./bp.zip", "3"] true false) "ruby_bp" "./bp.zip" "3" 3
      rfl (by decide) (by decide)).2
      ⟨"guid-1", "ruby_bp", some 3, some true, none, "", ""⟩
      ⟨"no bits", some ⟨400, "290001"⟩⟩ rfl rfl⟩

/-! ## The successful run -/

/-- C6: on an invocation `(name, path, pos)` where `pos` parses to `p`, the
flags are not both set and both repositories succeed, the remote calls are
`Create` with the name, the position `p` and a nil fourth argument, then
`UploadBuildpack` with the buildpack `Create` returned and the path; and
`Execute` returns nil. -/
theorem Execute_success_calls (x : Externals) (cmd : CreateBuildpack) (c : FlagContext)
    (name path pos : String) (p : Int) (bp : Buildpack)
    (hargs : c.Args = [name, path, pos]) (hpos : Atoi pos = some p)
    (hnot : ¬ (c.Bool "enable" = true ∧ c.Bool "disable" = true))
    (hcreate : cmd.buildpackRepo.Create name (some p)
      (enableOption (c.Bool "enable") (c.Bool "disable")) none = (bp, none))
    (hupload : cmd.buildpackBitsRepo.UploadBuildpack bp path = none) :
    remoteCalls (Execute x cmd c).trace
      = [Event.Create name (some p) (enableOption (c.Bool "enable") (c.Bool "disable")) none,
         Event.UploadBuildpack bp path]
    ∧ createCalls (Execute x cmd c).trace
      = [(name, some p, enableOption (c.Bool "enable") (c.Bool "disable"), none)]
    ∧ uploadCalls (Execute x cmd c).trace = [(bp, path)]
    ∧ (Execute x cmd c).value = some none := by
  rw [run_success x cmd c name path pos p bp hargs hpos hnot hcreate hupload]
  exact ⟨rfl, rfl, rfl, rfl⟩

/-- A run of C6: scenario 1 of the spec. -/
theorem Execute_success_calls_witness :
    Atoi "3" = some 3
    ∧ remoteCalls (Execute plainExternals ⟨echoRepo, bitsRepo none⟩
        (invocation ["ruby_bp", "./bp.zip", "3"] false false)).trace
      = [Event.Create "ruby_bp" (some 3) none none,
         Event.UploadBuildpack ⟨"guid-1", "ruby_bp", some 3, none, none, "", ""⟩ "./bp.zip"]
    ∧ (Execute plainExternals ⟨echoRepo, bitsRepo none⟩
        (invocation ["ruby_bp", "./bp.zip", "3"] false false)).value = some none :=
  ⟨by decide,
    (Execute_success_calls plainExternals ⟨echoRepo, bitsRepo none⟩
      (invocation ["ruby_bp", "./bp.zip", "3"] false false) "ruby_bp" "./bp.zip" "3" 3
      ⟨"guid-1", "ruby_bp", some 3, none, none, "", ""⟩
      rfl (by decide) (by decide) rfl rfl).1,
    (Execute_success_calls plainExternals ⟨echoRepo, bitsRepo none⟩
      (invocation ["ruby_bp", "./bp.zip", "3"] false false) "ruby_bp" "./bp.zip" "3" 3
      ⟨"guid-1", "ruby_bp", some 3, none, none, "", ""⟩
      rfl (by decide) (by decide) rfl rfl).2.2.2⟩

/-! ## The order of remote calls and messages -/

/-- The three ways `createBuildpack` can end: a panic on a missing third
argument, a validation error without any call, or one call to `Create` whose
result is returned as it is. -/
theorem createBuildpack_shape (x : Externals) (cmd : CreateBuildpack) (bn : String)
    (c : FlagContext) :
    createBuildpack x cmd bn c = ⟨[], none⟩
    ∨ (∃ err : Error, err.http = none
        ∧ createBuildpack x cmd bn c = ⟨[], some (Buildpack.zero, some err)⟩)
    ∨ (∃ (arg2 : String) (p : Int) (e : Option Bool),
        c.Args[2]? = some arg2 ∧ Atoi arg2 = some p
        ∧ createBuildpack x cmd bn c
          = ⟨[Event.Create bn (some p) e none],
              some (cmd.buildpackRepo.Create bn (some p) e none)⟩) := by
  unfold createBuildpack
  cases h2 : c.Args[2]? with
  | none => exact Or.inl rfl
  | some arg2 =>
    simp only []
    cases hpos : Atoi arg2 with
    | none => exact Or.inr (Or.inl ⟨errNotInteger x arg2, rfl, rfl⟩)
    | some p =>
      simp only []
      by_cases hb : (c.Bool "enable" && c.Bool "disable") = true
      · exact Or.inr (Or.inl ⟨errBothFlags x, rfl, by simp only [hb, if_true]; rfl⟩)
      · exact Or.inr (Or.inr ⟨arg2, p, enableOption (c.Bool "enable") (c.Bool "disable"),
          rfl, hpos, by simp [hb]⟩)

/-- C7: whatever the invocation and whatever the repositories do, the remote
calls of `Execute` are none, or one `Create`, or one `Create` followed by one
`UploadBuildpack` of the buildpack that `Create` returned together with a nil
error; so each is called at most once and nothing is retried. -/
theorem Execute_remote_call_sequence (x : Externals) (cmd : CreateBuildpack) (c : FlagContext) :
    (remoteCalls (Execute x cmd c).trace = []
      ∨ (∃ (n : String) (p : Option Int) (e l : Option Bool),
          remoteCalls (Execute x cmd c).trace = [Event.Create n p e l])
      ∨ (∃ (n : String) (p : Option Int) (e l : Option Bool) (bp : Buildpack) (path : String),
          remoteCalls (Execute x cmd c).trace
            = [Event.Create n p e l, Event.UploadBuildpack bp path]
          ∧ cmd.buildpackRepo.Create n p e l = (bp, none)))
    ∧ (createCalls (Execute x cmd c).trace).length ≤ 1
    ∧ (uploadCalls (Execute x cmd c).trace).length ≤ 1 := by
  unfold Execute
  cases h0 : c.Args[0]? with
  | none => exact ⟨Or.inl rfl, by simp [createCalls], by simp [uploadCalls]⟩
  | some bn =>
    rcases createBuildpack_shape x cmd bn c with h | ⟨err, hhttp, h⟩ | ⟨_, p, e, _, _, h⟩
    · simp only [h]
      exact ⟨Or.inl rfl, by simp [createCalls, Event.createArgs],
        by simp [uploadCalls, Event.uploadArgs]⟩
    · simp only [h, hhttp]
      exact ⟨Or.inl rfl, by simp [createCalls, Event.createArgs],
        by simp [uploadCalls, Event.uploadArgs]⟩
    · simp only [h]
      rcases hres : cmd.buildpackRepo.Create bn (some p) e none with ⟨bp, _ | err⟩
      · simp only []
        cases h1 : c.Args[1]? with
        | none =>
          exact ⟨Or.inr (Or.inl ⟨bn, some p, e, none, by simp [remoteCalls, Event.isRemote]⟩),
            by simp [createCalls, Event.createArgs], by simp [uploadCalls, Event.uploadArgs]⟩
        | some path =>
          simp only []
          cases hup : cmd.buildpackBitsRepo.UploadBuildpack bp path with
          | none =>
            exact ⟨Or.inr (Or.inr ⟨bn, some p, e, none, bp, path,
              by simp [remoteCalls, Event.isRemote], hres⟩),
              by simp [createCalls, Event.createArgs], by simp [uploadCalls, Event.uploadArgs]⟩
          | some err =>
            exact ⟨Or.inr (Or.inr ⟨bn, some p, e, none, bp, path,
              by simp [remoteCalls, Event.isRemote], hres⟩),
              by simp [createCalls, Event.createArgs], by simp [uploadCalls, Event.uploadArgs]⟩
      · simp only []
        split
        · exact ⟨Or.inr (Or.inl ⟨bn, some p, e, none, by simp [remoteCalls, Event.isRemote]⟩),
            by simp [createCalls, Event.createArgs], by simp [uploadCalls, Event.uploadArgs]⟩
        · exact ⟨Or.inr (Or.inl ⟨bn, some p, e, none, by simp [remoteCalls, Event.isRemote]⟩),
            by simp [createCalls, Event.createArgs], by simp [uploadCalls, Event.uploadArgs]⟩

/-- C8: on an invocation with three arguments the trace of `Execute` begins
with the message that the buildpack is being created, so that message
precedes any call to `Create`; the trace has one of five shapes, in which the
message that the buildpack is being uploaded is sent only after a `Create`
that returned a nil error and is the event just before `UploadBuildpack`; on
full success the UI messages are the creating message, Ok, an empty line, the
uploading message, Ok; and on the name-taken path they are the creating
message, Ok, the warning, the tip. -/
theorem Execute_trace_order (x : Externals) (cmd : CreateBuildpack) (c : FlagContext)
    (name path pos : String) (hargs : c.Args = [name, path, pos]) :
    (Execute x cmd c).trace.head? = some (Event.Say (msgCreating x name))
    ∧ ((Execute x cmd c).trace = [Event.Say (msgCreating x name)]
      ∨ (∃ (p : Int) (e : Option Bool) (bp : Buildpack) (err : Error),
          cmd.buildpackRepo.Create name (some p) e none = (bp, some err)
          ∧ ((Execute x cmd c).trace
              = [Event.Say (msgCreating x name), Event.Create name (some p) e none]
            ∨ (Execute x cmd c).trace
              = [Event.Say (msgCreating x name), Event.Create name (some p) e none,
                 Event.Ok, Event.Warn (msgAlreadyExists x name), Event.Say (msgTip x)]))
      ∨ (∃ (p : Int) (e : Option Bool) (bp : Buildpack),
          cmd.buildpackRepo.Create name (some p) e none = (bp, none)
          ∧ ((Execute x cmd c).trace
              = [Event.Say (msgCreating x name), Event.Create name (some p) e none,
                 Event.Ok, Event.Say "", Event.Say (msgUploading x name),
                 Event.UploadBuildpack bp path]
            ∨ (Execute x cmd c).trace
              = [Event.Say (msgCreating x name), Event.Create name (some p) e none,
                 Event.Ok, Event.Say "", Event.Say (msgUploading x name),
                 Event.UploadBuildpack bp path, Event.Ok])))
    ∧ (∀ (i : Nat) (bp : Buildpack) (path' : String),
        (Execute x cmd c).trace[i]? = some (Event.UploadBuildpack bp path') →
        ∃ j : Nat, i = j + 1
          ∧ (Execute x cmd c).trace[j]? = some (Event.Say (msgUploading x name))
          ∧ ∃ (k : Nat) (p : Int) (e : Option Bool), k < j
            ∧ (Execute x cmd c).trace[k]? = some (Event.Create name (some p) e none)
            ∧ cmd.buildpackRepo.Create name (some p) e none = (bp, none))
    ∧ (∀ (p : Int) (bp : Buildpack), Atoi pos = some p →
        ¬ (c.Bool "enable" = true ∧ c.Bool "disable" = true) →
        cmd.buildpackRepo.Create name (some p)
          (enableOption (c.Bool "enable") (c.Bool "disable")) none = (bp, none) →
        cmd.buildpackBitsRepo.UploadBuildpack bp path = none →
        uiMessages (Execute x cmd c).trace
          = [Event.Say (msgCreating x name), Event.Ok, Event.Say "",
             Event.Say (msgUploading x name), Event.Ok])
    ∧ (∀ (p : Int) (bp : Buildpack) (err : Error) (h : HTTPInfo), Atoi pos = some p →
        ¬ (c.Bool "enable" = true ∧ c.Bool "disable" = true) →
        cmd.buildpackRepo.Create name (some p)
          (enableOption (c.Bool "enable") (c.Bool "disable")) none = (bp, some err) →
        err.http = some h → h.ErrorCode = x.BuildpackNameTaken →
        uiMessages (Execute x cmd c).trace
          = [Event.Say (msgCreating x name), Event.Ok,
             Event.Warn (msgAlreadyExists x name), Event.Say (msgTip x)]) := by
  have hshape : (Execute x cmd c).trace = [Event.Say (msgCreating x name)]
      ∨ (∃ (p : Int) (e : Option Bool) (bp : Buildpack) (err : Error),
          cmd.buildpackRepo.Create name (some p) e none = (bp, some err)
          ∧ ((Execute x cmd c).trace
              = [Event.Say (msgCreating x name), Event.Create name (some p) e none]
            ∨ (Execute x cmd c).trace
              = [Event.Say (msgCreating x name), Event.Create name (some p) e none,
                 Event.Ok, Event.Warn (msgAlreadyExists x name), Event.Say (msgTip x)]))
      ∨ (∃ (p : Int) (e : Option Bool) (bp : Buildpack),
          cmd.buildpackRepo.Create name (some p) e none = (bp, none)
          ∧ ((Execute x cmd c).trace
              = [Event.Say (msgCreating x name), Event.Create name (some p) e none,
                 Event.Ok, Event.Say "", Event.Say (msgUploading x name),
                 Event.UploadBuildpack bp path]
            ∨ (Execute x cmd c).trace
              = [Event.Say (msgCreating x name), Event.Create name (some p) e none,
                 Event.Ok, Event.Say "", Event.Say (msgUploading x name),
                 Event.UploadBuildpack bp path, Event.Ok])) := by
    cases hpos : Atoi pos with
    | none =>
      rw [run_not_integer x cmd c name path pos hargs hpos]
      exact Or.inl rfl
    | some p =>
      by_cases hboth : c.Bool "enable" = true ∧ c.Bool "disable" = true
      · rw [run_both_flags x cmd c name path pos p hargs hpos hboth.1 hboth.2]
        exact Or.inl rfl
      · rcases hres : cmd.buildpackRepo.Create name (some p)
          (enableOption (c.Bool "enable") (c.Bool "disable")) none with ⟨bp, _ | err⟩
        · refine Or.inr (Or.inr ⟨p, _, bp, hres, ?_⟩)
          cases hup : cmd.buildpackBitsRepo.UploadBuildpack bp path with
          | none =>
            rw [run_success x cmd c name path pos p bp hargs hpos hboth hres hup]
            exact Or.inr rfl
          | some err =>
            rw [run_upload_error x cmd c name path pos p bp err hargs hpos hboth hres hup]
            exact Or.inl rfl
        · refine Or.inr (Or.inl ⟨p, _, bp, err, hres, ?_⟩)
          by_cases htaken : ∃ h : HTTPInfo, err.http = some h
              ∧ h.ErrorCode = x.BuildpackNameTaken
          · obtain ⟨h, hhttp, hcode⟩ := htaken
            rw [run_name_taken x cmd c name path pos p bp err h hargs hpos hboth hres
              hhttp hcode]
            exact Or.inr rfl
          · rw [run_create_error x cmd c name path pos p bp err hargs hpos hboth hres
              htaken]
            exact Or.inl rfl
  refine ⟨?_, hshape, ?_, ?_, ?_⟩
  · rcases hshape with h | ⟨_, _, _, _, _, h | h⟩ | ⟨_, _, _, _, h | h⟩ <;> rw [h] <;> rfl
  · intro i bp path' hi
    rcases hshape with h | ⟨_, _, _, _, _, h | h⟩ | ⟨p, e, bp', hres, h | h⟩ <;> rw [h] at hi ⊢
    · rcases i with _ | _ | i <;> simp at hi
    · rcases i with _ | _ | _ | i <;> simp at hi
    · rcases i with _ | _ | _ | _ | _ | _ | i <;> simp at hi
    · rcases i with _ | _ | _ | _ | _ | _ | _ | i <;> simp at hi
      obtain ⟨rfl, rfl⟩ := hi
      exact ⟨4, rfl, rfl, 1, p, e, by omega, rfl, hres⟩
    · rcases i with _ | _ | _ | _ | _ | _ | _ | _ | i <;> simp at hi
      obtain ⟨rfl, rfl⟩ := hi
      exact ⟨4, rfl, rfl, 1, p, e, by omega, rfl, hres⟩
  · intro p bp hpos hboth hres hup
    rw [run_success x cmd c name path pos p bp hargs hpos hboth hres hup]
    rfl
  · intro p bp err h hpos hboth hres hhttp hcode
    rw [run_name_taken x cmd c name path pos p bp err h hargs hpos hboth hres hhttp hcode]
    rfl

/-- A run of C8: the full trace of scenario 1 of the spec. -/
theorem Execute_trace_order_witness :
    (Execute plainExternals ⟨echoRepo, bitsRepo none⟩
        (invocation ["ruby_bp", "./bp.zip", "3"] false false)).trace.head?
      = some (Event.Say (msgCreating plainExternals "ruby_bp"))
    ∧ uiMessages (Execute plainExternals ⟨echoRepo, bitsRepo none⟩
        (invocation ["ruby_bp", "./bp.zip", "3"] false false)).trace
      = [Event.Say (msgCreating plainExternals "ruby_bp"), Event.Ok, Event.Say "",
         Event.Say (msgUploading plainExternals "ruby_bp"), Event.Ok] :=
  ⟨(Execute_trace_order plainExternals ⟨echoRepo, bitsRepo none⟩
      (invocation ["ruby_bp", "./bp.zip", "3"] false false) "ruby_bp" "./bp.zip" "3" rfl).1,
    (Execute_trace_order plainExternals ⟨echoRepo, bitsRepo none⟩
      (invocation ["ruby_bp", "./bp.zip", "3"] false false) "ruby_bp" "./bp.zip" "3" rfl).2.2.2.1
      3 ⟨"guid-1", "ruby_bp", some 3, none, none, "", ""⟩ (by decide) (by decide) rfl rfl⟩

/-! ## The arity gate -/

/-- C9: when the number of arguments is not three, `Requirements` sends to
`ui.Failed` the incorrect-usage message followed by the usage text of the
command and does not return, so no requirement is produced, the command stops
there and no remote call is made; when it is three, `Requirements` reports
nothing and returns exactly the login requirement. -/
theorem Requirements_arity (x : Externals) (cmd : CreateBuildpack) (loggedIn : Bool)
    (c : FlagContext) :
    (c.Args.length ≠ 3 →
      Requirements x c
        = ⟨[Event.Failed
            (x.T "Incorrect Usage. Requires buildpack_name, path and position as arguments\n\n" []
              ++ x.CommandUsage "create-buildpack")], none⟩
      ∧ (runCommand x cmd loggedIn c).trace
        = [Event.Failed
            (x.T "Incorrect Usage. Requires buildpack_name, path and position as arguments\n\n" []
              ++ x.CommandUsage "create-buildpack")]
      ∧ (runCommand x cmd loggedIn c).value = none
      ∧ remoteCalls (runCommand x cmd loggedIn c).trace = [])
    ∧ (c.Args.length = 3 →
      Requirements x c = ⟨[], some [Requirement.LoginRequirement]⟩) := by
  constructor
  · intro h
    have hreq : Requirements x c
        = ⟨[Event.Failed
            (x.T "Incorrect Usage. Requires buildpack_name, path and position as arguments\n\n" []
              ++ x.CommandUsage "create-buildpack")], none⟩ := by
      unfold Requirements Failed
      rw [if_pos h]
    refine ⟨hreq, ?_, ?_, ?_⟩ <;> simp [runCommand, hreq, remoteCalls, Event.isRemote]
  · intro h
    unfold Requirements
    rw [if_neg (by simpa using h)]

/-- Two runs of C9: two arguments and three arguments. -/
theorem Requirements_arity_witness :
    (remoteCalls (runCommand plainExternals ⟨echoRepo, bitsRepo none⟩ true
        (invocation ["ruby_bp", "./bp.zip"] false false)).trace = []
      ∧ (Requirements plainExternals (invocation ["ruby_bp", "./bp.zip"] false false)).value
          = none)
    ∧ Requirements plainExternals (invocation ["ruby_bp", "./bp.zip", "3"] false false)
        = ⟨[], some [Requirement.LoginRequirement]⟩ :=
  ⟨⟨((Requirements_arity plainExternals ⟨echoRepo, bitsRepo none⟩ true
        (invocation ["ruby_bp", "./bp.zip"] false false)).1 (by decide)).2.2.2,
     congrArg Outcome.value
      ((Requirements_arity plainExternals ⟨echoRepo, bitsRepo none⟩ true
        (invocation ["ruby_bp", "./bp.zip"] false false)).1 (by decide)).1⟩,
   (Requirements_arity plainExternals ⟨echoRepo, bitsRepo none⟩ true
      (invocation ["ruby_bp", "./bp.zip", "3"] false false)).2 (by decide)⟩

/-! ## The position -/

/-- What `Atoi` accepts is a value of Go's 64-bit `int`. -/
theorem Atoi_range (s : String) (k : Int) (h : Atoi s = some k) :
    -(2 : Int) ^ 63 ≤ k ∧ k < (2 : Int) ^ 63 := by
  unfold Atoi at h
  split at h
  · cases h
  · split at h
    · cases h
    · split at h
      · cases h
      · split at h
        · cases h; constructor <;> omega
        · cases h
  · split at h
    · cases h
    · split at h
      · cases h
      · split at h
        · cases h; constructor <;> omega
        · cases h
  · split at h
    · cases h
    · split at h
      · cases h; constructor <;> omega
      · cases h

/-- C10 fails on the position `0`: with arguments `bp`, `./x`, `0` it is not
true that every call to `Create` carries a position of at least 1. -/
theorem Execute_position_zero :
    ¬ (∀ (n : String) (p : Option Int) (e l : Option Bool),
        Event.Create n p e l ∈ (Execute plainExternals ⟨echoRepo, bitsRepo none⟩
          (invocation ["bp", "./x", "0"] false false)).trace →
        ∃ k : Int, p = some k ∧ 1 ≤ k) := by
  intro h
  obtain ⟨k, hk, hle⟩ := h "bp" (some 0) none none (by decide)
  cases hk
  omega

/-- C10 as amended: whenever `Execute` calls `Create`, the position it passes
is the integer that `strconv.Atoi` read from the third argument, which may be
any value of Go's `int`, zero and negative values included. -/
theorem Execute_position_is_parsed (x : Externals) (cmd : CreateBuildpack) (c : FlagContext)
    (n : String) (p : Option Int) (e l : Option Bool)
    (h : Event.Create n p e l ∈ (Execute x cmd c).trace) :
    ∃ (arg2 : String) (k : Int),
      c.Args[2]? = some arg2 ∧ Atoi arg2 = some k ∧ p = some k
      ∧ -(2 : Int) ^ 63 ≤ k ∧ k < (2 : Int) ^ 63 := by
  unfold Execute at h
  cases h0 : c.Args[0]? with
  | none => simp [h0] at h
  | some bn =>
    simp only [h0] at h
    rcases createBuildpack_shape x cmd bn c with hc | ⟨err, hhttp, hc⟩ | ⟨arg2, k, e', h2, hk, hc⟩
    · simp [hc] at h
    · simp [hc, hhttp] at h
    · have hp : p = some k := by
        simp only [hc] at h
        rcases hres : cmd.buildpackRepo.Create bn (some k) e' none with ⟨bp, _ | err⟩
        · simp only [hres] at h
          cases h1 : c.Args[1]? with
          | none => simp [h1] at h; exact h.2.1
          | some path =>
            simp only [h1] at h
            cases hup : cmd.buildpackBitsRepo.UploadBuildpack bp path with
            | none => simp [hup] at h; exact h.2.1
            | some err => simp [hup] at h; exact h.2.1
        · simp only [hres] at h
          split at h <;> simp at h <;> exact h.2.1
      exact ⟨arg2, k, h2, hk, hp, Atoi_range arg2 k hk⟩

/-- A run of the amended C10 at the position `-5`. -/
theorem Execute_position_is_parsed_witness :
    Event.Create "bp" (some (-5)) none none
        ∈ (Execute plainExternals ⟨echoRepo, bitsRepo none⟩
            (invocation ["bp", "./x", "-5"] false false)).trace
    ∧ ∃ (arg2 : String) (k : Int),
        (invocation ["bp", "./x", "-5"] false false).Args[2]? = some arg2
        ∧ Atoi arg2 = some k ∧ some (-5 : Int) = some k
        ∧ -(2 : Int) ^ 63 ≤ k ∧ k < (2 : Int) ^ 63 :=
  ⟨by decide,
    Execute_position_is_parsed plainExternals ⟨echoRepo, bitsRepo none⟩
      (invocation ["bp", "./x", "-5"] false false) "bp" (some (-5)) none none (by decide)⟩

end CfCli
